import Mathlib

/-!
Verification of the GkTypesRs repository: a shallow embedding of the
small-buffer-optimized `ArrayList` (growth policy, SIMD find kernels,
shrink paths, allocation layout selection) and of the job system
(worker selection sweep, queue drain, one-shot future), together with
theorems settling the spec claims about them.

Machine integers are modelled as `Nat` (all the relevant quantities are
non-negative and no arithmetic here can overflow a 64-bit word except
where noted); element values are modelled as `Int`; uninitialized slots
of a buffer are modelled as arbitrary junk values supplied explicitly.
-/

namespace GkTypes

/-! ## ArrayList: size and capacity arithmetic (src/array/array_list.rs) -/

/-- Constant `SMALL_REP_BUFFER_BYTE_CAPACITY`: size of pointer + usize = 16 bytes on x86-64. -/
def SMALL_REP_BUFFER_BYTE_CAPACITY : Nat := 16

/-- Predicate `can_type_be_small::<T>()`: element size at most 16 bytes and alignment
at most the `usize` alignment (8). -/
def canTypeBeSmall (sizeT alignT : Nat) : Bool :=
  sizeT ≤ SMALL_REP_BUFFER_BYTE_CAPACITY && alignT ≤ 8

/-- Function `small_buffer_type_capacity::<T>()`: number of elements fitting in the
16-byte in-place buffer, 0 for a type that cannot be small. -/
def smallBufferTypeCapacity (sizeT alignT : Nat) : Nat :=
  if canTypeBeSmall sizeT alignT then SMALL_REP_BUFFER_BYTE_CAPACITY / sizeT else 0

/-- The `can_simd` test repeated throughout `array_list.rs`:
`size_of::<T>() == 1 || == 2 || == 4 || == 8`. -/
def isSimdSize (sizeT : Nat) : Bool :=
  sizeT == 1 || sizeT == 2 || sizeT == 4 || sizeT == 8

/-- Stride `64 / size_of::<T>()`: elements per 512-bit lane. -/
def numPerSimd (sizeT : Nat) : Nat := 64 / sizeT

/-- The capacity adjustment performed by `ArrayList::malloc_heap_buffer`:
for SIMD-eligible sizes the requested capacity is rounded up to the next
multiple of `64 / size_of::<T>()`; otherwise it is left unchanged. -/
def mallocHeapCapacity (sizeT cap : Nat) : Nat :=
  if isSimdSize sizeT then
    let n := numPerSimd sizeT
    let remainder := cap % n
    if remainder ≠ 0 then cap + (n - remainder) else cap
  else cap

/-- The growth target computed by `push`/`insert` (and `reserve`'s default
branch): `(3 * (current_capacity + 1)) >> 1`. -/
def growTargetNormal (cap : Nat) : Nat := (3 * (cap + 1)) / 2

/-- Capacity actually obtained when `push`/`insert` trigger a growth at
current capacity `cap`: the `~1.5x` target passed through
`malloc_heap_buffer`'s SIMD rounding. -/
def pushGrownCapacity (sizeT cap : Nat) : Nat :=
  mallocHeapCapacity sizeT (growTargetNormal cap)

/-- The new-capacity selection in `ArrayList::reserve`: the larger of
`length + additional` and the `~1.5x` target, before SIMD rounding. -/
def reserveTarget (cap len additional : Nat) : Nat :=
  if len + additional > growTargetNormal cap then len + additional
  else growTargetNormal cap

/-- Capacity obtained when `reserve` triggers a growth. -/
def reserveGrownCapacity (sizeT cap len additional : Nat) : Nat :=
  mallocHeapCapacity sizeT (reserveTarget cap len additional)

/-- Alignment of the layout used by `ArrayList::malloc_heap_buffer`:
64 for SIMD-eligible sizes (`malloc_aligned_buffer(cap, 64)`), the
type's natural alignment otherwise (`malloc_buffer`). -/
def mallocHeapAlignment (sizeT alignT : Nat) : Nat :=
  if isSimdSize sizeT then 64 else alignT

/-- Alignment of the layout used by `ArrayList::free_heap_buffer`:
64 whenever `size_of::<T>() <= size_of::<usize>()`
(`free_aligned_buffer(buffer, cap, 64)`), natural alignment otherwise. -/
def freeHeapAlignment (sizeT alignT : Nat) : Nat :=
  if sizeT ≤ 8 then 64 else alignT

/-! ## ArrayList: find and find_simd (src/array/array_list.rs, src/array/simd.rs)

A buffer is a `List Int` of length `capacity` (the allocated extent);
slots at indices `≥ length` hold junk. -/

/-- Model of `ArrayList::find`: linear scan of the first `length` elements by value
equality, returning the first matching index. -/
def findModel (buf : List Int) (length : Nat) (element : Int) : Option Nat :=
  (List.range length).find? (fun i => buf.getD i 0 == element)

/-- The linear fallback inside `ArrayList::find_simd` (taken when
`capacity < 64 / size_of::<T>()`): it compares `buffer.offset(index) ==
element`, i.e. the ADDRESS `bufAddr + index * sizeT` against the address
of the needle reference, not the values. -/
def findSimdFallback (sizeT : Nat) (bufAddr elemAddr : Nat) (length : Nat) :
    Option Nat :=
  (List.range length).find? (fun i => bufAddr + i * sizeT == elemAddr)

/-- Lowest set bit of the equality mask of one SIMD chunk: the least
`j < stride` such that `buffer[i + j] == element`, or none when the mask
is zero. -/
def chunkLowestMatch (buf : List Int) (i stride : Nat) (element : Int) :
    Option Nat :=
  (List.range stride).find? (fun j => buf.getD (i + j) 0 == element)

/-- The chunk loop shared by all eight `simd_find_*` kernels: at chunk
offset `i`, if the mask is nonzero with lowest set bit `k`, the kernel
returns `k + i` when `k + length <= capacity` and otherwise skips to the
next chunk; `iters` counts the remaining chunks of
`(0..capacity).step_by(stride)`. -/
def simdFindGo (stride : Nat) (buf : List Int) (length capacity : Nat)
    (element : Int) : Nat → Nat → Option Nat
  | 0, _ => none
  | iters + 1, i =>
    match chunkLowestMatch buf i stride element with
    | some lowest =>
      if lowest + length ≤ capacity then some (lowest + i)
      else simdFindGo stride buf length capacity element iters (i + stride)
    | none => simdFindGo stride buf length capacity element iters (i + stride)

/-- A `simd_find_epiN_512` kernel for elements of `stride = 64 / sizeT`
per vector: `(0..capacity).step_by(stride)` performs
`⌈capacity / stride⌉` iterations. -/
def simdFindKernel (stride : Nat) (buf : List Int) (length capacity : Nat)
    (element : Int) : Option Nat :=
  simdFindGo stride buf length capacity element ((capacity + stride - 1) / stride) 0

/-- Model of `ArrayList::find_simd`: dispatches to the 512-bit kernel when
`capacity >= 64 / size_of::<T>()`, and otherwise runs the
pointer-equality linear fallback. -/
def findSimdModel (sizeT : Nat) (buf : List Int) (bufAddr elemAddr : Nat)
    (element : Int) (length capacity : Nat) : Option Nat :=
  if capacity ≥ numPerSimd sizeT then
    simdFindKernel (numPerSimd sizeT) buf length capacity element
  else
    findSimdFallback sizeT bufAddr elemAddr length

/-- The buffer contents of scenario 2 of the spec: a 4-byte-element list
populated with `0..200` (length 200, capacity 272 after the growth
sequence 4 → 16 → 32 → 64 → 112 → 176 → 272), the 72 uninitialized
slots modelled as junk value 0. -/
def scenario2Buffer : List Int :=
  (List.range 200).map Int.ofNat ++ List.replicate 72 0

/-! ## ArrayList: element-level insert and remove (src/array/array_list.rs)

The buffer is the allocated extent (`List Int` of length `capacity`,
slots beyond `length` holding junk); both operations assume the index
precondition `index < length` and, for `insert`, that a free slot exists
at `buffer[length]` (the callers reallocate first). -/

/-- Effect of `std::mem::swap(&mut buf[i], &mut buf[j])`. -/
def listSwap (buf : List Int) (i j : Nat) : List Int :=
  (buf.set i (buf.getD j 0)).set j (buf.getD i 0)

/-- The swap loop shared by `insert` and `remove`: starting at slot `i`,
perform `count` successive swaps of `buf[p]` with `buf[p + 1]` for
`p = i, i+1, …` in INCREASING order (this is the order both source
loops use). -/
def swapUpLoop (buf : List Int) (i : Nat) : Nat → List Int
  | 0 => buf
  | count + 1 => swapUpLoop (listSwap buf (i + 1) i) (i + 1) count

/-- Model of `ArrayList::insert(index, element)` after any growth: runs the swap
loop `for i in index..length { swap(buf[i+1], buf[i]) }`, then writes
`element` at `index` and increments the length. -/
def insertModel (buf : List Int) (length index : Nat) (element : Int) :
    List Int × Nat :=
  ((swapUpLoop buf index (length - index)).set index element, length + 1)

/-- Model of `ArrayList::remove(index)`: reads out `buf[index]`, runs the swap
loop `for i in index..(length-1) { swap(buf[i], buf[i+1]) }`, and
decrements the length; returns the removed value with the new state. -/
def removeModel (buf : List Int) (length index : Nat) :
    Int × List Int × Nat :=
  (buf.getD index 0, swapUpLoop buf index (length - 1 - index), length - 1)

/-! ## ArrayList: representation / allocation state machine
(src/array/array_list.rs)

For the inline-storage claims only the bookkeeping matters: which
representation the list is in, its length, its heap capacity, and how
many heap allocations have been performed.  Operations carry the
element's `sizeT`/`alignT` explicitly (they are const generics in the
source). -/

structure ALState where
  smallRep : Bool
  length : Nat
  heapCapacity : Nat
  allocCount : Nat
  deriving Repr, DecidableEq

/-- Model of `ArrayList::new`: inline representation (tag bit clear) when the type
qualifies, otherwise the null heap representation; no allocation. -/
def ALState.new (sizeT alignT : Nat) : ALState :=
  { smallRep := canTypeBeSmall sizeT alignT, length := 0,
    heapCapacity := 0, allocCount := 0 }

/-- Model of `ArrayList::capacity`: the inline capacity while in the small
representation of a qualifying type, the heap capacity otherwise. -/
def ALState.capacity (sizeT alignT : Nat) (s : ALState) : Nat :=
  if canTypeBeSmall sizeT alignT && s.smallRep then
    smallBufferTypeCapacity sizeT alignT
  else s.heapCapacity

/-- Model of `ArrayList::reallocate(min_capacity)`: unconditionally calls
`malloc_heap_buffer` (one heap allocation, with the SIMD capacity
rounding), moves the elements, and sets the heap flag. -/
def ALState.reallocate (sizeT : Nat) (s : ALState) (minCapacity : Nat) :
    ALState :=
  { smallRep := false, length := s.length,
    heapCapacity := mallocHeapCapacity sizeT minCapacity,
    allocCount := s.allocCount + 1 }

/-- Model of `ArrayList::with_capacity`: a zero or inline-fitting request returns
`ArrayList::new`; otherwise a heap buffer is allocated up front. -/
def ALState.withCapacity (sizeT alignT cap : Nat) : ALState :=
  if cap = 0 then ALState.new sizeT alignT
  else if canTypeBeSmall sizeT alignT &&
      cap ≤ smallBufferTypeCapacity sizeT alignT then ALState.new sizeT alignT
  else
    { smallRep := false, length := 0,
      heapCapacity := mallocHeapCapacity sizeT cap, allocCount := 1 }

/-- Model of `ArrayList::push`: grow by `~1.5x` when `length == capacity` or
`capacity == 0`, then write at `buffer[length]` and increment length. -/
def ALState.push (sizeT alignT : Nat) (s : ALState) : ALState :=
  let cap := s.capacity sizeT alignT
  let s' := if s.length = cap ∨ cap = 0 then
      s.reallocate sizeT (growTargetNormal cap)
    else s
  { s' with length := s'.length + 1 }

/-- Model of `ArrayList::insert` (allocation behaviour): the growth condition and
target are identical to `push`; the shifted write then increments the
length.  Precondition `index < length` is the caller's. -/
def ALState.insertOp (sizeT alignT : Nat) (s : ALState) : ALState :=
  ALState.push sizeT alignT s

/-- Model of `ArrayList::remove` / `ArrayList::swap_remove` (allocation
behaviour): never reallocate, decrement the length. -/
def ALState.removeOp (s : ALState) : ALState :=
  { s with length := s.length - 1 }

/-- Model of `ArrayList::reserve`. -/
def ALState.reserve (sizeT alignT : Nat) (s : ALState) (additional : Nat) :
    ALState :=
  let cap := s.capacity sizeT alignT
  if s.length + additional ≤ cap then s
  else s.reallocate sizeT (reserveTarget cap s.length additional)

/-- Model of `ArrayList::shrink_to_fit`: the minimum is the length rounded up to
the SIMD stride for SIMD-eligible sizes (the same formula as
`malloc_heap_buffer`); reallocate whenever the current capacity exceeds
it.  Note the source has no small-representation guard. -/
def ALState.shrinkToFit (sizeT alignT : Nat) (s : ALState) : ALState :=
  let cap := s.capacity sizeT alignT
  let minCap := mallocHeapCapacity sizeT s.length
  if cap > minCap then s.reallocate sizeT minCap else s

/-- Model of `ArrayList::shrink_to(min_capacity)`: no-op when the capacity is
below the floor, otherwise shrink to `max(length, floor)` rounded up to
the SIMD stride.  Like `shrink_to_fit` it has no small-representation
guard. -/
def ALState.shrinkTo (sizeT alignT : Nat) (s : ALState) (minCapacity : Nat) :
    ALState :=
  let cap := s.capacity sizeT alignT
  if cap < minCapacity then s
  else
    let lowerBound := if minCapacity < s.length then s.length else minCapacity
    let newMinCap := mallocHeapCapacity sizeT lowerBound
    if cap > newMinCap then s.reallocate sizeT newMinCap else s

/-! ## JobSystem: initialization guards (src/job_system/system.rs) -/

/-- The `JobSystem` header: the `is_initialized` flag and the
`UnsafeCell<MaybeUninit<Inner>>` (modelled as `Option` of the worker
count, the only `Inner` field these claims need). -/
structure JobSystemState where
  isInitialized : Bool
  innerThreadCount : Option Nat
  deriving Repr, DecidableEq

/-- Model of `JobSystem::new_uninit()`: deferred construction, `inner`
never written. -/
def JobSystemState.newUninit : JobSystemState :=
  { isInitialized := false, innerThreadCount := none }

/-- Model of `JobSystem::new_init(n)`. -/
def JobSystemState.newInit (n : Nat) : JobSystemState :=
  { isInitialized := true, innerThreadCount := some n }

/-- The guard at the top of `JobSystem::run_job`: a `debug_assert!` only,
so it panics exactly when compiled in debug and the system is
uninitialized; in release it proceeds into the uninitialized `Inner`. -/
def runJobGuard (debug : Bool) (s : JobSystemState) : Except String Unit :=
  if debug && !s.isInitialized then
    .error "JobSystem is not initialized. Please call init()"
  else .ok ()

/-- The guard at the top of `JobSystem::wait`: also a `debug_assert!`. -/
def waitGuard (debug : Bool) (s : JobSystemState) : Except String Unit :=
  if debug && !s.isInitialized then
    .error "JobSystem is not initialized. Please call init()"
  else .ok ()

/-- Model of `JobSystem::thread_count`: the source performs NO initialization
check (not even a `debug_assert!`) and directly reads
`inner.assume_init_mut().thread_count`; on an uninitialized system the
read is of uninitialized memory, modelled here as the unspecified
value 0.  The function never panics. -/
def threadCountResult (s : JobSystemState) : Except String Nat :=
  .ok (s.innerThreadCount.getD 0)

/-! ## JobSystem: worker selection
(`Inner::get_optimal_thread_for_execution`, src/job_system/system.rs)

A worker observation is a pair `(is_executing, queued_count)`. -/

/-- Constant `usize::MAX`, the initial `minimum_queue_load`. -/
def USIZE_MAX : Nat := 2 ^ 64 - 1

/-- The cyclic visiting order of the sweep: `(prev + i) % n` for
`i = 0, …, n-1`. -/
def cyclicOrder (n prev : Nat) : List Nat :=
  (List.range n).map (fun i => (prev + i) % n)

/-- The immediate-selection test: worker observed `!is_executing` with
`queued_count == 0`. -/
def workerIdleZero (ws : List (Bool × Nat)) (idx : Nat) : Bool :=
  let w := ws.getD idx (true, 0)
  !w.1 && w.2 == 0

/-- The loop of `get_optimal_thread_for_execution`: `i` is the loop
counter, `r` the remaining iterations, and `(cur, minLoad,
isOptimalExecuting)` the running candidate state.  An idle worker with
an empty queue is returned immediately; otherwise the three guarded
updates of the source body run in order. -/
def getOptimalGo (ws : List (Bool × Nat)) (n prev : Nat) :
    Nat → Nat → Nat → Nat → Bool → Nat
  | _, 0, cur, _, _ => cur
  | i, r + 1, cur, minLoad, isOptimalExecuting =>
    let checkIndex := (prev + i) % n
    let w := ws.getD checkIndex (true, 0)
    let isNotExecuting := !w.1
    let queueLoad := w.2
    if isNotExecuting && queueLoad == 0 then checkIndex
    else if isNotExecuting && decide (queueLoad < minLoad) then
      getOptimalGo ws n prev (i + 1) r checkIndex queueLoad false
    else if decide (queueLoad < minLoad) && isOptimalExecuting then
      getOptimalGo ws n prev (i + 1) r checkIndex queueLoad isOptimalExecuting
    else
      getOptimalGo ws n prev (i + 1) r cur minLoad isOptimalExecuting

/-- Model of `Inner::get_optimal_thread_for_execution`: full sweep over all
`thread_count` workers starting from the round-robin hint `prev`, with
initial candidate `prev`, initial minimum load `usize::MAX`, and the
initial `is_optimal_executing = true`. -/
def getOptimalThreadForExecution (ws : List (Bool × Nat)) (prev : Nat) : Nat :=
  getOptimalGo ws ws.length prev 0 ws.length prev USIZE_MAX true

/-- Strict preference of the CLAIM's words (claim C5 / spec §4.4):
`w` beats `v` iff `w` is not-executing and `v` is executing, or they
have the same executing status and `w` has strictly lower queued
count.  Ties break toward the first-seen. -/
def claimBetter (w v : Bool × Nat) : Bool :=
  (!w.1 && v.1) || (w.1 == v.1 && decide (w.2 < v.2))

/-- The worker-selection function as the CLAIM's words describe it
(for comparison with `getOptimalThreadForExecution`): first worker
observed idle with empty queue in cyclic order, else the best of the
full sweep under `claimBetter` with ties to the first-seen. -/
def claimedOptimalThread (ws : List (Bool × Nat)) (prev : Nat) : Nat :=
  let order := cyclicOrder ws.length prev
  match order.find? (fun idx => workerIdleZero ws idx) with
  | some idx => idx
  | none =>
    match order with
    | [] => prev
    | h :: t =>
      t.foldl (fun best idx =>
        if claimBetter (ws.getD idx (true, 0)) (ws.getD best (true, 0)) then idx
        else best) h

/-- One accumulation step of the AMENDED selection rule: the visited
worker displaces the incumbent `(index, minLoad, incumbentExecuting)`
iff its queued count is strictly lower than `minLoad` and either it is
not-executing or the incumbent is executing. -/
def amendedStep (ws : List (Bool × Nat)) (st : Nat × Nat × Bool) (idx : Nat) :
    Nat × Nat × Bool :=
  let w := ws.getD idx (true, 0)
  if decide (w.2 < st.2.1) && (!w.1 || st.2.2) then (idx, w.2, w.1) else st

/-- The selection function of the AMENDED claim: first worker observed
idle with empty queue in cyclic order; otherwise the survivor of the
full sweep under `amendedStep`, seeded with the hint itself at load
`usize::MAX` and incumbent-executing `true`. -/
def amendedOptimalThread (ws : List (Bool × Nat)) (prev : Nat) : Nat :=
  let order := cyclicOrder ws.length prev
  match order.find? (fun idx => workerIdleZero ws idx) with
  | some idx => idx
  | none => (order.foldl (amendedStep ws) (prev, USIZE_MAX, true)).1

/-! ## JobWorker: queue drain (src/job_system/active_jobs.rs,
src/job_system/ring_queue.rs, src/job_system/thread.rs)

A job slot (`JobContainer`) is its optional bound closure, modelled as
`Option Nat` with the `Nat` identifying the job; `none` is the default
(unbound) container. -/

/-- Model of `JobRingQueue`: bounded ring buffer with explicit indices. -/
structure JobRingQueueState where
  buffer : List (Option Nat)
  length : Nat
  readIndex : Nat
  writeIndex : Nat
  deriving Repr, DecidableEq

/-- Model of `ActiveJobs`: the drain-destination buffer and its live count. -/
structure ActiveJobsState where
  work : List (Option Nat)
  count : Nat
  deriving Repr, DecidableEq

/-- Model of `ActiveJobs::collect_jobs(queue)`:
`swap_nonoverlapping(work + count, queue.buffer, queue.length)` swaps the
first `queue.length` slots of the queue buffer with
`work[count .. count + queue.length)`, then `count += queue.length` and
the queue's `length`, `read_index`, `write_index` are zeroed. -/
def collectJobs (a : ActiveJobsState) (q : JobRingQueueState) :
    ActiveJobsState × JobRingQueueState :=
  let k := q.length
  let newWork := a.work.take a.count ++ q.buffer.take k
      ++ a.work.drop (a.count + k)
  let newQueueBuf := (a.work.drop a.count).take k ++ q.buffer.drop k
  (⟨newWork, a.count + k⟩, ⟨newQueueBuf, 0, 0, 0⟩)

/-- The drain step of `JobThread::execute_queued_jobs` up to the point
the queue mutex is released: under both locks, store 0 to the pending
counter and run `collect_jobs`. -/
def executeQueuedJobsCollect (a : ActiveJobsState) (q : JobRingQueueState)
    (_pendingCount : Nat) : ActiveJobsState × JobRingQueueState × Nat :=
  let (a', q') := collectJobs a q
  (a', q', 0)

/-! ## Future (src/job_system/future.rs)

The shared cell is `Option α` under a lock; the lock only serializes
`set` against `wait`'s `try_lock` polls, so the sequential model acts
on the cell directly. -/

/-- Model of `WithinJobFuture::set(data)`: store `Some(data)` under the lock. -/
def futureSet (v : α) (_cell : Option α) : Option α := some v

/-- One `try_lock` poll of `JobFuture::wait`: when the cell holds a
value, take it (leaving `None`) and return it; otherwise keep
looping. -/
def futureWaitStep (cell : Option α) : Option (α × Option α) :=
  match cell with
  | some v => some (v, none)
  | none => none

/-- Model of `JobFuture::wait`, bounded to `fuel` polls of an unchanging cell:
returns the taken value and the emptied cell, or `none` when every poll
found the cell empty (the real loop would still be spinning). -/
def futureWait (fuel : Nat) (cell : Option α) : Option (α × Option α) :=
  match fuel with
  | 0 => none
  | fuel + 1 =>
    match futureWaitStep cell with
    | some r => some r
    | none => futureWait fuel cell

/-! ## Helper lemmas -/

/-- Lemma: `malloc_heap_buffer` never lowers the requested capacity. -/
theorem le_mallocHeapCapacity (sizeT cap : Nat) :
    cap ≤ mallocHeapCapacity sizeT cap := by
  unfold mallocHeapCapacity
  split
  · dsimp only
    split <;> omega
  · exact le_refl _

/-- For a SIMD-eligible size the per-lane element count is positive. -/
theorem numPerSimd_pos (sizeT : Nat) (hs : isSimdSize sizeT = true) :
    0 < numPerSimd sizeT := by
  unfold isSimdSize at hs
  simp only [Bool.or_eq_true, beq_iff_eq] at hs
  rcases hs with ((h | h) | h) | h <;> subst h <;> decide

/-- Lemma: `malloc_heap_buffer` returns a multiple of the SIMD stride for
SIMD-eligible sizes. -/
theorem dvd_mallocHeapCapacity (sizeT cap : Nat) (hs : isSimdSize sizeT = true) :
    numPerSimd sizeT ∣ mallocHeapCapacity sizeT cap := by
  have hn : 0 < numPerSimd sizeT := numPerSimd_pos sizeT hs
  unfold mallocHeapCapacity
  rw [hs]
  dsimp only
  by_cases hr : cap % numPerSimd sizeT = 0
  · simp only [hr, ne_eq, not_true_eq_false, if_false]
    exact Nat.dvd_of_mod_eq_zero hr
  · simp only [ne_eq, hr, not_false_eq_true, if_true]
    refine ⟨cap / numPerSimd sizeT + 1, ?_⟩
    have hdm := Nat.div_add_mod cap (numPerSimd sizeT)
    have hlt : cap % numPerSimd sizeT < numPerSimd sizeT := Nat.mod_lt cap hn
    rw [Nat.mul_add, Nat.mul_one]
    omega

/-- One non-immediately-selecting iteration of the selection loop is an
`amendedStep` on the running candidate state. -/
theorem getOptimalGo_succ_not_idle (ws : List (Bool × Nat))
    (n prev i r cur minLoad : Nat) (flag : Bool)
    (h : workerIdleZero ws ((prev + i) % n) = false) :
    getOptimalGo ws n prev i (r + 1) cur minLoad flag =
      getOptimalGo ws n prev (i + 1) r
        (amendedStep ws (cur, minLoad, flag) ((prev + i) % n)).1
        (amendedStep ws (cur, minLoad, flag) ((prev + i) % n)).2.1
        (amendedStep ws (cur, minLoad, flag) ((prev + i) % n)).2.2 := by
  rcases hw : ws.getD ((prev + i) % n) (true, 0) with ⟨e, load⟩
  simp only [workerIdleZero, hw] at h
  simp only [getOptimalGo, amendedStep, hw]
  cases e <;> cases flag <;> by_cases hl : load < minLoad <;> simp_all <;>
    (have hnl : ¬load < minLoad := by omega
     simp [hnl])

/-- The selection loop equals the find-then-fold presentation of the
amended rule, over any suffix of the sweep. -/
theorem getOptimalGo_eq_amended (ws : List (Bool × Nat)) (n prev : Nat) :
    ∀ (r i cur minLoad : Nat) (flag : Bool),
      getOptimalGo ws n prev i r cur minLoad flag =
        match ((List.range' i r).map (fun j => (prev + j) % n)).find?
            (fun idx => workerIdleZero ws idx) with
        | some idx => idx
        | none =>
          (((List.range' i r).map (fun j => (prev + j) % n)).foldl
            (amendedStep ws) (cur, minLoad, flag)).1 := by
  intro r
  induction r with
  | zero =>
    intro i cur minLoad flag
    simp [getOptimalGo]
  | succ r ih =>
    intro i cur minLoad flag
    rw [List.range'_succ]
    simp only [List.map_cons]
    by_cases hiz : workerIdleZero ws ((prev + i) % n) = true
    · rw [List.find?_cons_of_pos _ hiz]
      rcases hw : ws.getD ((prev + i) % n) (true, 0) with ⟨e, load⟩
      simp only [workerIdleZero, hw] at hiz
      simp only [getOptimalGo, hw]
      simp [hiz]
    · rw [List.find?_cons_of_neg _ (by simpa using hiz)]
      rw [getOptimalGo_succ_not_idle ws n prev i r cur minLoad flag
        (by simpa using hiz)]
      rw [ih]
      rw [List.foldl_cons]

/-- Lemma: `futureWait` with positive fuel on a filled cell takes the value. -/
theorem futureWait_some (fuel : Nat) (hf : 0 < fuel) (v : α) :
    futureWait fuel (some v) = some (v, none) := by
  cases fuel with
  | zero => omega
  | succ n => rfl

/-- Lemma: `futureWait` on an empty cell never returns, whatever the fuel. -/
theorem futureWait_none (fuel : Nat) :
    futureWait fuel (none : Option α) = none := by
  induction fuel with
  | zero => rfl
  | succ n ih => simpa [futureWait, futureWaitStep] using ih

/-! ## Claim theorems -/

/-- C1 (code bug): `find` and `find_simd` do NOT return identical results
on identical inputs.  On a 4-byte-element list in the inline
representation (capacity 4 < 16, the small-capacity fallback path) whose
single live element equals the needle, `find` returns `Some(0)` while
`find_simd`'s fallback — which compares the ADDRESS `buffer.offset(i)`
against the needle reference instead of the values — returns `None` for
a needle stored outside the buffer. -/
theorem c1_find_vs_find_simd_code_bug :
    findModel [5, 0, 0, 0] 1 5 = some 0
    ∧ findSimdModel 4 [5, 0, 0, 0] 0 1000 5 1 4 = none := by
  constructor <;> decide

/-- C2 (code bug): `find_simd` can return an index at or beyond the
logical length.  In the spec's own scenario — a 4-byte-element list
populated with `0..200` (capacity 272) then truncated to length 100 via
`set_len` — `find_simd(&137)` does NOT return `None`: the kernel's
acceptance test `lowest + length <= capacity` (9 + 100 ≤ 272) lets the
stale match at index 137 ≥ 100 through, while `find` correctly returns
`None`. -/
theorem c2_find_simd_beyond_length_code_bug :
    findSimdModel 4 scenario2Buffer 0 2000 137 100 272 = some 137
    ∧ findModel scenario2Buffer 100 137 = none
    ∧ ¬(137 < 100) := by
  refine ⟨by decide, by decide, by decide⟩

/-- C3 (code bug): `insert(i, x); remove(i)` returns `x` but does NOT
restore the original elements when at least two elements sit at or after
the insertion point.  On the list `[1, 2]` (capacity 3, junk 0 in the
free slot), `insert(0, 9)` runs its shift loop in INCREASING index
order, producing the buffer `[9, 0, 1]` instead of `[9, 1, 2]`; the
subsequent `remove(0)` returns 9 but leaves `[0, 1]` ≠ `[1, 2]`. -/
theorem c3_insert_remove_roundtrip_code_bug :
    insertModel [1, 2, 0] 2 0 9 = ([9, 0, 1], 3)
    ∧ (removeModel [9, 0, 1] 3 0).1 = 9
    ∧ (removeModel [9, 0, 1] 3 0).2.2 = 2
    ∧ (removeModel [9, 0, 1] 3 0).2.1.take 2 ≠ [1, 2] := by
  refine ⟨by decide, by decide, by decide, by decide⟩

/-- C4 (counterexample): the claimed growth bound
`new_c ≥ ceil(1.5*(c+1))` fails.  For a non-SIMD-eligible element size
(24 bytes, spec scenario 3) a push-triggered growth at capacity 0 yields
capacity `(3*(0+1)) >> 1 = 1`, strictly below `ceil(1.5*1) = 2`. -/
theorem c4_growth_ceil_counterexample :
    pushGrownCapacity 24 0 = 1
    ∧ ¬((3 * (0 + 1) + 1) / 2 ≤ pushGrownCapacity 24 0) := by
  constructor <;> decide

/-- C4 (amended): a growth triggered by `push`/`insert` at capacity `c`
with no larger minimum requested reaches at least
`floor(1.5*(c+1)) = (3*(c+1)) >> 1` (not the ceiling), with the
SIMD-eligible widths additionally rounded up to a multiple of
`64/sizeof(T)`; `reserve` falls back to the same target when
`length + additional` does not exceed it. -/
theorem c4_growth_floor_amended (sizeT cap len additional : Nat) :
    growTargetNormal cap ≤ pushGrownCapacity sizeT cap
    ∧ (isSimdSize sizeT = true →
        numPerSimd sizeT ∣ pushGrownCapacity sizeT cap)
    ∧ (len + additional ≤ growTargetNormal cap →
        reserveGrownCapacity sizeT cap len additional
          = pushGrownCapacity sizeT cap) := by
  refine ⟨le_mallocHeapCapacity sizeT (growTargetNormal cap),
    fun hs => dvd_mallocHeapCapacity sizeT (growTargetNormal cap) hs,
    fun hle => ?_⟩
  unfold reserveGrownCapacity pushGrownCapacity reserveTarget
  have : ¬(len + additional > growTargetNormal cap) := by omega
  rw [if_neg this]

/-- C4 witness: the amended bound applied at a SIMD-eligible width
(4-byte elements) growing from the inline capacity 4, with a reserve
request below the default target. -/
theorem c4_growth_floor_amended_witness :
    growTargetNormal 4 ≤ pushGrownCapacity 4 4
    ∧ (isSimdSize 4 = true → numPerSimd 4 ∣ pushGrownCapacity 4 4)
    ∧ (0 + 5 ≤ growTargetNormal 4 →
        reserveGrownCapacity 4 4 0 5 = pushGrownCapacity 4 4) :=
  c4_growth_floor_amended 4 4 0 5

/-- C5 (counterexample): the claimed preference "any not-executing
worker is preferred over any executing worker" fails.  With two workers
observed as `(executing, queued 0)` and `(idle, queued 5)` and hint 0,
the sweep keeps the executing worker 0 (strictly-lower-load rule) while
the claim's rule selects the idle worker 1. -/
theorem c5_selection_preference_counterexample :
    getOptimalThreadForExecution [(true, 0), (false, 5)] 0 = 0
    ∧ claimedOptimalThread [(true, 0), (false, 5)] 0 = 1 := by
  constructor <;> decide

/-- C5 (amended): the sweep returns the first worker observed both
not-executing and with queued count 0 in cyclic order from the hint if
one exists; otherwise the surviving candidate of the full sweep, where a
worker displaces the incumbent exactly when its queued count is strictly
lower and it is not-executing or the incumbent is executing (so ties,
and idle workers with higher queued counts, keep the first-seen
incumbent). -/
theorem c5_selection_amended (ws : List (Bool × Nat)) (prev : Nat) :
    getOptimalThreadForExecution ws prev = amendedOptimalThread ws prev := by
  unfold getOptimalThreadForExecution amendedOptimalThread cyclicOrder
  rw [List.range_eq_range']
  exact getOptimalGo_eq_amended ws ws.length prev ws.length 0 prev USIZE_MAX true

/-- C6 (code bug): a heap allocation CAN occur while the length never
exceeds the inline capacity.  A freshly created 4-byte-element list is
inline with length 0 and capacity 4 and has allocated nothing, yet
`shrink_to_fit` — which lacks any small-representation guard — computes
minimum capacity 0, reallocates, performs one heap allocation, and flips
the list to the heap representation. -/
theorem c6_inline_no_alloc_code_bug :
    (ALState.new 4 4).length = 0
    ∧ (ALState.new 4 4).capacity 4 4 = 4
    ∧ (ALState.new 4 4).allocCount = 0
    ∧ (ALState.new 4 4).smallRep = true
    ∧ (ALState.shrinkToFit 4 4 (ALState.new 4 4)).allocCount = 1
    ∧ (ALState.shrinkToFit 4 4 (ALState.new 4 4)).smallRep = false := by
  refine ⟨rfl, by decide, rfl, by decide, by decide, by decide⟩

/-- C7 (code bug): the free-path layout does not match the
allocation-path layout for element sizes 3, 5, 6, 7:
`malloc_heap_buffer` selects 64-byte alignment by
`size ∈ {1, 2, 4, 8}` while `free_heap_buffer` selects it by
`size <= 8`, so a size-3 buffer is allocated at its natural alignment 1
but freed as if 64-byte aligned (likewise 5, 6, 7), while sizes in
`{1, 2, 4, 8}` and sizes above 8 match. -/
theorem c7_free_layout_mismatch_code_bug :
    freeHeapAlignment 3 1 = 64 ∧ mallocHeapAlignment 3 1 = 1
    ∧ freeHeapAlignment 3 1 ≠ mallocHeapAlignment 3 1
    ∧ freeHeapAlignment 5 1 ≠ mallocHeapAlignment 5 1
    ∧ freeHeapAlignment 6 2 ≠ mallocHeapAlignment 6 2
    ∧ freeHeapAlignment 7 1 ≠ mallocHeapAlignment 7 1
    ∧ freeHeapAlignment 4 4 = mallocHeapAlignment 4 4
    ∧ freeHeapAlignment 24 8 = mallocHeapAlignment 24 8 := by
  refine ⟨by decide, by decide, by decide, by decide, by decide, by decide,
    by decide, by decide⟩

/-- C8 (code bug): operations on a deferred (uninitialized) `JobSystem`
are NOT all fatal.  `thread_count` has no initialization check at all
and returns the uninitialized read instead of panicking, and the
`run_job`/`wait` guards are `debug_assert!`s, so in release builds they
too proceed; only debug builds of `run_job`/`wait` panic. -/
theorem c8_uninit_use_guard_code_bug :
    threadCountResult JobSystemState.newUninit = Except.ok 0
    ∧ runJobGuard false JobSystemState.newUninit = Except.ok ()
    ∧ waitGuard false JobSystemState.newUninit = Except.ok ()
    ∧ runJobGuard true JobSystemState.newUninit
        = Except.error "JobSystem is not initialized. Please call init()"
    ∧ waitGuard true JobSystemState.newUninit
        = Except.error "JobSystem is not initialized. Please call init()" := by
  refine ⟨rfl, rfl, rfl, rfl, rfl⟩

/-- C9: one drain step (`execute_queued_jobs` up to releasing the queue
lock) moves the `k = queue.length` queued jobs from the head of the
queue into active slots `[count, count + k)` in queue order, sets the
active count to `count + k`, zeroes the queue's `length`, `read_index`
and `write_index`, resets the pending counter to 0, and leaves the
vacated queue slots holding unbound (default) jobs — given that the
blocks fit, the queue's head is at index 0, and the active slots beyond
`count` are unbound. -/
theorem c9_collect_jobs_drain
    (a : ActiveJobsState) (q : JobRingQueueState) (pending : Nat)
    (hwork : a.count + q.length ≤ a.work.length)
    (hqbuf : q.length ≤ q.buffer.length)
    (hunbound : ∀ x ∈ a.work.drop a.count, x = none)
    (_hread : q.readIndex = 0) :
    (executeQueuedJobsCollect a q pending).1.count = a.count + q.length
    ∧ (executeQueuedJobsCollect a q pending).1.work.take a.count
        = a.work.take a.count
    ∧ ((executeQueuedJobsCollect a q pending).1.work.drop a.count).take q.length
        = q.buffer.take q.length
    ∧ (executeQueuedJobsCollect a q pending).2.1.length = 0
    ∧ (executeQueuedJobsCollect a q pending).2.1.readIndex = 0
    ∧ (executeQueuedJobsCollect a q pending).2.1.writeIndex = 0
    ∧ (executeQueuedJobsCollect a q pending).2.2 = 0
    ∧ ∀ x ∈ (executeQueuedJobsCollect a q pending).2.1.buffer.take q.length,
        x = none := by
  have hlenA : (a.work.take a.count).length = a.count := by
    rw [List.length_take]; omega
  have hlenB : (q.buffer.take q.length).length = q.length := by
    rw [List.length_take]; omega
  have hlenD : ((a.work.drop a.count).take q.length).length = q.length := by
    rw [List.length_take, List.length_drop]; omega
  refine ⟨rfl, ?_, ?_, rfl, rfl, rfl, rfl, ?_⟩
  · show List.take a.count
        ((a.work.take a.count ++ q.buffer.take q.length)
          ++ a.work.drop (a.count + q.length))
      = a.work.take a.count
    rw [List.append_assoc]
    exact List.take_left' hlenA
  · show List.take q.length (List.drop a.count
        ((a.work.take a.count ++ q.buffer.take q.length)
          ++ a.work.drop (a.count + q.length)))
      = q.buffer.take q.length
    rw [List.append_assoc, List.drop_left' hlenA, List.take_left' hlenB]
  · intro x hx
    rw [show (executeQueuedJobsCollect a q pending).2.1.buffer
        = ((a.work.drop a.count).take q.length ++ q.buffer.drop q.length)
      from rfl] at hx
    rw [List.take_left' hlenD] at hx
    exact hunbound x (List.take_subset _ _ hx)

/-- C9 witness: the drain applied to an active buffer holding one
already-collected job and two unbound slots, and a queue holding two
jobs with pending counter 5. -/
theorem c9_collect_jobs_drain_witness :
    ((⟨[some 7, none, none], 1⟩ : ActiveJobsState).count
        + (⟨[some 1, some 2], 2, 0, 0⟩ : JobRingQueueState).length
      ≤ (⟨[some 7, none, none], 1⟩ : ActiveJobsState).work.length)
    ∧ ((executeQueuedJobsCollect ⟨[some 7, none, none], 1⟩
          ⟨[some 1, some 2], 2, 0, 0⟩ 5).1.count
        = (⟨[some 7, none, none], 1⟩ : ActiveJobsState).count
          + (⟨[some 1, some 2], 2, 0, 0⟩ : JobRingQueueState).length
      ∧ (executeQueuedJobsCollect ⟨[some 7, none, none], 1⟩
          ⟨[some 1, some 2], 2, 0, 0⟩ 5).1.work.take
            (⟨[some 7, none, none], 1⟩ : ActiveJobsState).count
        = (⟨[some 7, none, none], 1⟩ : ActiveJobsState).work.take
            (⟨[some 7, none, none], 1⟩ : ActiveJobsState).count
      ∧ ((executeQueuedJobsCollect ⟨[some 7, none, none], 1⟩
          ⟨[some 1, some 2], 2, 0, 0⟩ 5).1.work.drop
            (⟨[some 7, none, none], 1⟩ : ActiveJobsState).count).take
            (⟨[some 1, some 2], 2, 0, 0⟩ : JobRingQueueState).length
        = (⟨[some 1, some 2], 2, 0, 0⟩ : JobRingQueueState).buffer.take
            (⟨[some 1, some 2], 2, 0, 0⟩ : JobRingQueueState).length
      ∧ (executeQueuedJobsCollect ⟨[some 7, none, none], 1⟩
          ⟨[some 1, some 2], 2, 0, 0⟩ 5).2.1.length = 0
      ∧ (executeQueuedJobsCollect ⟨[some 7, none, none], 1⟩
          ⟨[some 1, some 2], 2, 0, 0⟩ 5).2.1.readIndex = 0
      ∧ (executeQueuedJobsCollect ⟨[some 7, none, none], 1⟩
          ⟨[some 1, some 2], 2, 0, 0⟩ 5).2.1.writeIndex = 0
      ∧ (executeQueuedJobsCollect ⟨[some 7, none, none], 1⟩
          ⟨[some 1, some 2], 2, 0, 0⟩ 5).2.2 = 0
      ∧ ∀ x ∈ (executeQueuedJobsCollect ⟨[some 7, none, none], 1⟩
          ⟨[some 1, some 2], 2, 0, 0⟩ 5).2.1.buffer.take
            (⟨[some 1, some 2], 2, 0, 0⟩ : JobRingQueueState).length,
          x = none) :=
  ⟨by decide,
   c9_collect_jobs_drain ⟨[some 7, none, none], 1⟩ ⟨[some 1, some 2], 2, 0, 0⟩
     5 (by decide) (by decide) (by decide) rfl⟩

/-- C10: once the producer has performed `set(v)` on the shared cell,
the consumer's `wait` (any positive number of polls) returns exactly
`v` and leaves the cell empty; and `wait` over a cell that was never
set does not return, however many polls it makes. -/
theorem c10_future_set_wait {α : Type} (v : α) (c : Option α) (fuel : Nat)
    (hf : 0 < fuel) :
    futureWait fuel (futureSet v c) = some (v, none)
    ∧ futureWait fuel (none : Option α) = none := by
  exact ⟨futureWait_some fuel hf v, futureWait_none fuel⟩

/-- C10 witness: a single poll after `set 3` on an initially empty
cell. -/
theorem c10_future_set_wait_witness :
    0 < 1
    ∧ (futureWait 1 (futureSet 3 (none : Option Nat)) = some (3, none)
      ∧ futureWait 1 (none : Option Nat) = none) :=
  ⟨Nat.one_pos, c10_future_set_wait 3 none 1 Nat.one_pos⟩

end GkTypes
